import Mathlib

/-!
Verification of the geolocation nearest-point finder.

The source is three React pages sharing one core: a haversine distance
function `calculateDistance`, a single-nearest linear scan
`findNearestLocation`, a nearest-3 selector `findNearestBloodBanks`
(map + stable sort + slice), and CSV-parse callbacks that filter rows on
truthiness of the coordinate strings and substitute a sentinel for missing
display attributes.

Numeric values are embedded as real numbers (`ℝ`); the CSV layer models
JavaScript numbers produced by `parseFloat` with an explicit `JsNumber`
type so that `NaN` is representable.
-/

open Real (pi)

/-- `Math.atan2 y x`, embedded as the argument of the complex number
`x + y·i`. Both the source and the spec apply it to the same arguments,
and only the properties `atan2 0 1 = 0` and `0 ≤ atan2 y x` for `0 ≤ y`
are used. -/
noncomputable def atan2 (y x : ℝ) : ℝ :=
  Complex.arg ⟨x, y⟩

/-- A coordinate pair as used throughout the source: `{ lat, lng }`. -/
structure Coordinate where
  lat : ℝ
  lng : ℝ

/-- `calculateDistance(point1, point2)` from `src/app/page.js` lines 72-82
(identical in `src/app/bloodbank/page.js` lines 74-84 and
`src/unnamed/part_000` lines 76-86): haversine distance with
`R = 6371` km. -/
noncomputable def calculateDistance (point1 point2 : Coordinate) : ℝ :=
  let R : ℝ := 6371
  let dLat := (point2.lat - point1.lat) * pi / 180
  let dLng := (point2.lng - point1.lng) * pi / 180
  let a :=
    Real.sin (dLat / 2) * Real.sin (dLat / 2) +
    Real.cos (point1.lat * pi / 180) * Real.cos (point2.lat * pi / 180) *
    Real.sin (dLng / 2) * Real.sin (dLng / 2)
  let c := 2 * atan2 (Real.sqrt a) (Real.sqrt (1 - a))
  R * c

/-- Degrees to radians, as written in the spec (§4.3). -/
noncomputable def radians (x : ℝ) : ℝ := x * pi / 180

/-- The spec's distance contract (§4.3), transcribed from its own words:
`Δlat = radians(b.lat - a.lat); Δlng = radians(b.lng - a.lng);`
`h = sin²(Δlat/2) + cos(radians(a.lat))·cos(radians(b.lat))·sin²(Δlng/2);`
`distance = 2 · R · atan2(√h, √(1-h))` with `R = 6371`. -/
noncomputable def distanceSpec (a b : Coordinate) : ℝ :=
  let dlat := radians (b.lat - a.lat)
  let dlng := radians (b.lng - a.lng)
  let h := Real.sin (dlat / 2) ^ 2 +
    Real.cos (radians a.lat) * Real.cos (radians b.lat) * Real.sin (dlng / 2) ^ 2
  2 * 6371 * atan2 (Real.sqrt h) (Real.sqrt (1 - h))

lemma atan2_zero_one : atan2 0 1 = 0 := by
  have h : (⟨1, 0⟩ : ℂ) = 1 := by
    apply Complex.ext <;> simp
  rw [atan2, h, Complex.arg_one]

lemma atan2_nonneg {y x : ℝ} (hy : 0 ≤ y) : 0 ≤ atan2 y x := by
  rw [atan2]
  exact Complex.arg_nonneg_iff.mpr hy

/-- C2: the implemented `calculateDistance` coincides with the spec's
haversine great-circle formula with Earth radius 6371 km. -/
theorem calculateDistance_eq_distanceSpec (a b : Coordinate) :
    calculateDistance a b = distanceSpec a b := by
  simp only [calculateDistance, distanceSpec, radians]
  have h : Real.sin ((b.lat - a.lat) * pi / 180 / 2) *
        Real.sin ((b.lat - a.lat) * pi / 180 / 2) +
        Real.cos (a.lat * pi / 180) * Real.cos (b.lat * pi / 180) *
        Real.sin ((b.lng - a.lng) * pi / 180 / 2) *
        Real.sin ((b.lng - a.lng) * pi / 180 / 2) =
      Real.sin ((b.lat - a.lat) * pi / 180 / 2) ^ 2 +
        Real.cos (a.lat * pi / 180) * Real.cos (b.lat * pi / 180) *
        Real.sin ((b.lng - a.lng) * pi / 180 / 2) ^ 2 := by
    ring
  rw [h]
  ring

/-- The haversine quantity `a` is symmetric in the two points. -/
lemma calculateDistance_symm_core (p q : Coordinate) :
    calculateDistance p q = calculateDistance q p := by
  simp only [calculateDistance]
  have hA : Real.sin ((p.lat - q.lat) * pi / 180 / 2) *
        Real.sin ((p.lat - q.lat) * pi / 180 / 2) +
        Real.cos (q.lat * pi / 180) * Real.cos (p.lat * pi / 180) *
        Real.sin ((p.lng - q.lng) * pi / 180 / 2) *
        Real.sin ((p.lng - q.lng) * pi / 180 / 2) =
      Real.sin ((q.lat - p.lat) * pi / 180 / 2) *
        Real.sin ((q.lat - p.lat) * pi / 180 / 2) +
        Real.cos (p.lat * pi / 180) * Real.cos (q.lat * pi / 180) *
        Real.sin ((q.lng - p.lng) * pi / 180 / 2) *
        Real.sin ((q.lng - p.lng) * pi / 180 / 2) := by
    have h1 : (p.lat - q.lat) * pi / 180 / 2 = -((q.lat - p.lat) * pi / 180 / 2) := by
      ring
    have h2 : (p.lng - q.lng) * pi / 180 / 2 = -((q.lng - p.lng) * pi / 180 / 2) := by
      ring
    rw [h1, h2, Real.sin_neg, Real.sin_neg]
    ring
  rw [hA]

lemma calculateDistance_self_eq_zero (p : Coordinate) :
    calculateDistance p p = 0 := by
  simp only [calculateDistance, sub_self, zero_mul, zero_div, Real.sin_zero,
    mul_zero, zero_add, add_zero, Real.sqrt_zero, sub_zero, Real.sqrt_one]
  rw [atan2_zero_one]
  ring

lemma calculateDistance_nonneg (p q : Coordinate) :
    0 ≤ calculateDistance p q := by
  simp only [calculateDistance]
  refine mul_nonneg (by norm_num) (mul_nonneg (by norm_num) ?_)
  exact atan2_nonneg (Real.sqrt_nonneg _)

/-- C3: for valid coordinates, the distance is symmetric, is exactly `0`
on coincident points, and is never negative. (All three facts hold for
arbitrary real coordinates; the validity bounds are recorded because the
claim quantifies over valid coordinates only.) -/
theorem calculateDistance_symm_zero_nonneg (a b : Coordinate)
    (ha1 : -90 ≤ a.lat) (ha2 : a.lat ≤ 90) (ha3 : -180 ≤ a.lng) (ha4 : a.lng ≤ 180)
    (hb1 : -90 ≤ b.lat) (hb2 : b.lat ≤ 90) (hb3 : -180 ≤ b.lng) (hb4 : b.lng ≤ 180) :
    calculateDistance a b = calculateDistance b a ∧
    calculateDistance a a = 0 ∧
    0 ≤ calculateDistance a b :=
  ⟨calculateDistance_symm_core a b, calculateDistance_self_eq_zero a,
    calculateDistance_nonneg a b⟩

/-- Witness for C3 at the concrete valid coordinates (0,0) and (45,90). -/
theorem calculateDistance_symm_zero_nonneg_witness :
    calculateDistance ⟨0, 0⟩ ⟨45, 90⟩ = calculateDistance ⟨45, 90⟩ ⟨0, 0⟩ ∧
    calculateDistance ⟨0, 0⟩ ⟨0, 0⟩ = 0 ∧
    0 ≤ calculateDistance ⟨0, 0⟩ ⟨45, 90⟩ :=
  calculateDistance_symm_zero_nonneg ⟨0, 0⟩ ⟨45, 90⟩
    (by norm_num) (by norm_num) (by norm_num) (by norm_num)
    (by norm_num) (by norm_num) (by norm_num) (by norm_num)

/-- A parsed hospital record from `src/unnamed/part_000` lines 53-61:
a coordinate plus the five display attributes. The coordinate components
are embedded as real numbers (the valid-dataset data model of spec §3). -/
structure LocationRecord extends Coordinate where
  name : String
  address : String
  pinCode : String
  phoneNo : String
  fax : String

/-- The object returned by `findNearestLocation`
(`src/unnamed/part_000` lines 103-106): the record spread plus the
computed `distance`. -/
structure RankedLocation extends LocationRecord where
  distance : ℝ

/-- The body of the `for` loop of `findNearestLocation`
(`src/unnamed/part_000` lines 95-101): keep the running
`(nearestLoc, minDistance)` pair unless the next record is strictly
closer. -/
noncomputable def nearestStep (userLoc : Coordinate)
    (acc : LocationRecord × ℝ) (loc : LocationRecord) : LocationRecord × ℝ :=
  let distance := calculateDistance userLoc loc.toCoordinate
  if distance < acc.2 then (loc, distance) else acc

/-- `findNearestLocation(userLoc, locationsList)` from
`src/unnamed/part_000` lines 89-107 (identical in `src/app/page.js`
lines 85-103): returns `null` on an empty list, otherwise scans linearly
keeping the first strictly-smaller distance. -/
noncomputable def findNearestLocation (userLoc : Coordinate)
    (locationsList : List LocationRecord) : Option RankedLocation :=
  match locationsList with
  | [] => none
  | first :: rest =>
    let r := rest.foldl (nearestStep userLoc)
      (first, calculateDistance userLoc first.toCoordinate)
    some { r.1 with distance := r.2 }

/-- Loop invariant of `findNearestLocation`: the final pair holds a record
of the list together with its own distance, that distance is a lower bound
for the whole list, and every record strictly before the chosen one is
strictly farther (the scan keeps the first minimizer). -/
lemma foldl_nearestStep_spec (userLoc : Coordinate) (l : List LocationRecord) :
    ∀ (a : LocationRecord) (res : LocationRecord × ℝ),
    l.foldl (nearestStep userLoc) (a, calculateDistance userLoc a.toCoordinate) = res →
    res.2 = calculateDistance userLoc res.1.toCoordinate ∧
    (∀ y ∈ a :: l, res.2 ≤ calculateDistance userLoc y.toCoordinate) ∧
    ∃ pre post, a :: l = pre ++ res.1 :: post ∧
      ∀ x ∈ pre, res.2 < calculateDistance userLoc x.toCoordinate := by
  induction l with
  | nil =>
    intro a res h
    simp only [List.foldl_nil] at h
    subst h
    refine ⟨rfl, ?_, [], [], rfl, by simp⟩
    intro y hy
    simp only [List.mem_singleton] at hy
    subst hy
    exact le_refl _
  | cons x xs ih =>
    intro a res h
    rw [List.foldl_cons] at h
    by_cases hx : calculateDistance userLoc x.toCoordinate <
        calculateDistance userLoc a.toCoordinate
    · have hstep : nearestStep userLoc (a, calculateDistance userLoc a.toCoordinate) x =
          (x, calculateDistance userLoc x.toCoordinate) := by
        simp only [nearestStep]
        rw [if_pos hx]
      rw [hstep] at h
      obtain ⟨h1, h2, pre, post, hdec, hpre⟩ := ih x res h
      have hresx : res.2 ≤ calculateDistance userLoc x.toCoordinate :=
        h2 x (List.mem_cons_self x xs)
      refine ⟨h1, ?_, a :: pre, post, ?_, ?_⟩
      · intro y hy
        rcases List.mem_cons.mp hy with hya | hy'
        · subst hya
          exact le_of_lt (lt_of_le_of_lt hresx hx)
        · exact h2 y hy'
      · rw [List.cons_append, ← hdec]
      · intro z hz
        rcases List.mem_cons.mp hz with hza | hz'
        · subst hza
          exact lt_of_le_of_lt hresx hx
        · exact hpre z hz'
    · have hstep : nearestStep userLoc (a, calculateDistance userLoc a.toCoordinate) x =
          (a, calculateDistance userLoc a.toCoordinate) := by
        simp only [nearestStep]
        rw [if_neg hx]
      rw [hstep] at h
      obtain ⟨h1, h2, pre, post, hdec, hpre⟩ := ih a res h
      have hax : calculateDistance userLoc a.toCoordinate ≤
          calculateDistance userLoc x.toCoordinate := not_lt.mp hx
      have hresa : res.2 ≤ calculateDistance userLoc a.toCoordinate :=
        h2 a (List.mem_cons_self a xs)
      have hmem : ∀ y ∈ a :: x :: xs, res.2 ≤ calculateDistance userLoc y.toCoordinate := by
        intro y hy
        rcases List.mem_cons.mp hy with hya | hy'
        · subst hya
          exact hresa
        · rcases List.mem_cons.mp hy' with hyx | hy''
          · subst hyx
            exact le_trans hresa hax
          · exact h2 y (List.mem_cons_of_mem a hy'')
      cases pre with
      | nil =>
        simp only [List.nil_append] at hdec
        have hra : res.1 = a := (List.cons.injEq _ _ _ _ ▸ hdec).1.symm
        refine ⟨h1, hmem, [], x :: xs, ?_, by simp⟩
        rw [hra]
        rfl
      | cons a' pre' =>
        have hdec' := hdec
        rw [List.cons_append] at hdec'
        have ha' : a = a' := (List.cons.injEq _ _ _ _ ▸ hdec').1
        have hxs : xs = pre' ++ res.1 :: post := (List.cons.injEq _ _ _ _ ▸ hdec').2
        have hpa : res.2 < calculateDistance userLoc a.toCoordinate := by
          have := hpre a' (List.mem_cons_self a' pre')
          rw [← ha'] at this
          exact this
        refine ⟨h1, hmem, a :: x :: pre', post, ?_, ?_⟩
        · rw [hxs]
          rfl
        · intro z hz
          rcases List.mem_cons.mp hz with hza | hz'
          · subst hza
            exact hpa
          · rcases List.mem_cons.mp hz' with hzx | hz''
            · subst hzx
              exact lt_of_lt_of_le hpa hax
            · exact hpre z (List.mem_cons_of_mem a' hz'')

/-- C1: on a non-empty dataset, the distance annotated on the single
nearest result equals the minimum over all records of the haversine
distance from the position. -/
theorem findNearestLocation_distance_eq_min (P : Coordinate)
    (D : List LocationRecord) (h : D ≠ []) :
    ∃ res, findNearestLocation P D = some res ∧
      (D.map fun r => calculateDistance P r.toCoordinate).min? = some res.distance := by
  haveI : Std.Antisymm (α := ℝ) (· ≤ ·) := ⟨fun h1 h2 => le_antisymm h1 h2⟩
  match D, h with
  | first :: rest, _ =>
    obtain ⟨h1, h2, pre, post, hdec, -⟩ :=
      foldl_nearestStep_spec P rest first
        (rest.foldl (nearestStep P) (first, calculateDistance P first.toCoordinate)) rfl
    refine ⟨⟨(rest.foldl (nearestStep P)
        (first, calculateDistance P first.toCoordinate)).1,
      (rest.foldl (nearestStep P) (first, calculateDistance P first.toCoordinate)).2⟩,
      rfl, ?_⟩
    show ((first :: rest).map fun r => calculateDistance P r.toCoordinate).min? =
      some (rest.foldl (nearestStep P) (first, calculateDistance P first.toCoordinate)).2
    rw [List.min?_eq_some_iff (fun a : ℝ => le_refl a)
      (fun a b : ℝ => min_choice a b) (fun a b c : ℝ => le_min_iff)]
    constructor
    · have hmem1 : (rest.foldl (nearestStep P)
          (first, calculateDistance P first.toCoordinate)).1 ∈ first :: rest := by
        rw [hdec]
        exact List.mem_append_right _ (List.mem_cons_self _ _)
      rw [h1]
      exact List.mem_map.mpr ⟨_, hmem1, rfl⟩
    · intro b hb
      obtain ⟨y, hy, hyb⟩ := List.mem_map.mp hb
      rw [← hyb]
      exact h2 y hy

/-- Witness for C1: a one-record dataset at the user's own position. -/
theorem findNearestLocation_distance_eq_min_witness :
    ([(⟨⟨0, 0⟩, "A", "B", "C", "D", "E"⟩ : LocationRecord)] ≠ []) ∧
    ∃ res, findNearestLocation ⟨0, 0⟩ [⟨⟨0, 0⟩, "A", "B", "C", "D", "E"⟩] = some res ∧
      (([(⟨⟨0, 0⟩, "A", "B", "C", "D", "E"⟩ : LocationRecord)]).map
        (fun r => calculateDistance ⟨0, 0⟩ r.toCoordinate)).min? = some res.distance :=
  ⟨by simp, findNearestLocation_distance_eq_min ⟨0, 0⟩ _ (by simp)⟩

/-- A parsed blood-bank record from `src/app/bloodbank/page.js`
lines 54-59: a coordinate plus name and address. -/
structure BloodBank extends Coordinate where
  name : String
  address : String

/-- An element of `bloodBanksWithDistances`
(`src/app/bloodbank/page.js` lines 91-94): the record spread plus the
computed `distance`. -/
structure RankedBloodBank extends BloodBank where
  distance : ℝ

/-- The sort comparator `(a, b) => a.distance - b.distance` of
`src/app/bloodbank/page.js` line 97, as the ordering it induces:
`a` stays before `b` exactly when the comparator is `≤ 0`. -/
noncomputable def distanceLE (a b : RankedBloodBank) : Bool :=
  decide (a.distance ≤ b.distance)

/-- `bloodBanksWithDistances` (`src/app/bloodbank/page.js` lines 91-94):
every record annotated with its distance from the user. -/
noncomputable def bloodBanksWithDistances (userLoc : Coordinate)
    (bloodBanksList : List BloodBank) : List RankedBloodBank :=
  bloodBanksList.map fun bank =>
    { bank with distance := calculateDistance userLoc bank.toCoordinate }

/-- `sortedBloodBanks` (`src/app/bloodbank/page.js` line 97):
`Array.prototype.sort` is a stable sort, embedded as `mergeSort`. -/
noncomputable def sortedBloodBanks (userLoc : Coordinate)
    (bloodBanksList : List BloodBank) : List RankedBloodBank :=
  (bloodBanksWithDistances userLoc bloodBanksList).mergeSort distanceLE

/-- The selector with its arity `k` as a parameter. The source fixes
`k = 3` (`sortedBloodBanks.slice(0, 3)`); spec §2 and §4.4 treat the
arity as configuration rather than a separate code path, so the body is
the source's with `3` generalized to `k`. -/
noncomputable def selectNearest (userLoc : Coordinate)
    (bloodBanksList : List BloodBank) (k : ℕ) : List RankedBloodBank :=
  if bloodBanksList.length = 0 then []
  else (sortedBloodBanks userLoc bloodBanksList).take k

/-- `findNearestBloodBanks(userLoc, bloodBanksList)` from
`src/app/bloodbank/page.js` lines 87-101: empty guard, annotate, stable
sort by distance, return the first three. -/
noncomputable def findNearestBloodBanks (userLoc : Coordinate)
    (bloodBanksList : List BloodBank) : List RankedBloodBank :=
  if bloodBanksList.length = 0 then []
  else (sortedBloodBanks userLoc bloodBanksList).take 3

lemma findNearestBloodBanks_eq_selectNearest (userLoc : Coordinate)
    (bloodBanksList : List BloodBank) :
    findNearestBloodBanks userLoc bloodBanksList =
      selectNearest userLoc bloodBanksList 3 := rfl

lemma distanceLE_trans : ∀ a b c : RankedBloodBank,
    distanceLE a b → distanceLE b c → distanceLE a c := by
  intro a b c hab hbc
  simp only [distanceLE, decide_eq_true_eq] at hab hbc ⊢
  exact le_trans hab hbc

lemma distanceLE_total : ∀ a b : RankedBloodBank,
    distanceLE a b || distanceLE b a := by
  intro a b
  simp only [distanceLE, Bool.or_eq_true, decide_eq_true_eq]
  exact le_total a.distance b.distance

/-- C5: for every arity `k`, the selector returns `min k |D|` records,
sorted non-decreasing by distance. -/
theorem selectNearest_length_sorted (P : Coordinate) (D : List BloodBank) (k : ℕ) :
    (selectNearest P D k).length = min k D.length ∧
    (selectNearest P D k).Pairwise fun a b => a.distance ≤ b.distance := by
  constructor
  · by_cases hD : D.length = 0
    · simp [selectNearest, hD]
    · simp [selectNearest, hD, sortedBloodBanks, bloodBanksWithDistances]
  · have hsorted : (sortedBloodBanks P D).Pairwise
        fun a b => a.distance ≤ b.distance := by
      apply List.Pairwise.imp ?_
        (List.sorted_mergeSort distanceLE_trans distanceLE_total
          (bloodBanksWithDistances P D))
      intro a b hab
      simpa [distanceLE] using hab
    by_cases hD : D.length = 0
    · simp [selectNearest, hD]
    · rw [selectNearest, if_neg hD]
      exact List.Pairwise.sublist (List.take_sublist k _) hsorted

/-- C7: the selector applied to an empty dataset yields the empty result
for every position and every arity, and the single-nearest scan yields
`null`; neither is an error. -/
theorem selectNearest_empty (P : Coordinate) (k : ℕ) :
    selectNearest P [] k = [] ∧ findNearestBloodBanks P [] = [] ∧
    findNearestLocation P [] = none :=
  ⟨rfl, rfl, rfl⟩

/-- At each distance value, the stable sort reproduces the records in
original dataset order. -/
lemma filter_sortedBloodBanks_eq (P : Coordinate) (D : List BloodBank) (d : ℝ) :
    (sortedBloodBanks P D).filter (fun r => decide (r.distance = d)) =
      (bloodBanksWithDistances P D).filter (fun r => decide (r.distance = d)) := by
  have hmemd : ∀ x ∈ (bloodBanksWithDistances P D).filter
      (fun r => decide (r.distance = d)), x.distance = d := by
    intro x hx
    have := List.of_mem_filter hx
    exact of_decide_eq_true this
  have hpair : ((bloodBanksWithDistances P D).filter
      (fun r => decide (r.distance = d))).Pairwise
      (fun a b => distanceLE a b = true) := by
    apply List.pairwise_of_forall_mem_list
    intro a ha b hb
    simp only [distanceLE, decide_eq_true_eq]
    rw [hmemd a ha, hmemd b hb]
  have hsub : ((bloodBanksWithDistances P D).filter
      (fun r => decide (r.distance = d))).Sublist (sortedBloodBanks P D) :=
    List.sublist_mergeSort distanceLE_trans distanceLE_total hpair
      (List.filter_sublist _)
  have hidem : ((bloodBanksWithDistances P D).filter
        (fun r => decide (r.distance = d))).filter
      (fun r => decide (r.distance = d)) =
      (bloodBanksWithDistances P D).filter (fun r => decide (r.distance = d)) :=
    List.filter_eq_self.mpr fun a ha => List.mem_filter.mp ha |>.2
  have hsubf := hsub.filter (fun r => decide (r.distance = d))
  rw [hidem] at hsubf
  have hperm : List.Perm
      ((sortedBloodBanks P D).filter (fun r => decide (r.distance = d)))
      ((bloodBanksWithDistances P D).filter (fun r => decide (r.distance = d))) :=
    (List.mergeSort_perm (bloodBanksWithDistances P D) distanceLE).filter _
  exact (hsubf.eq_of_length hperm.length_eq.symm).symm

lemma sortedBloodBanks_pairwise (P : Coordinate) (D : List BloodBank) :
    (sortedBloodBanks P D).Pairwise fun a b => a.distance ≤ b.distance := by
  apply List.Pairwise.imp ?_
    (List.sorted_mergeSort distanceLE_trans distanceLE_total
      (bloodBanksWithDistances P D))
  intro a b hab
  simpa [distanceLE] using hab

/-- Concrete sample records used by witnesses. -/
def sampleBank : BloodBank := ⟨⟨0, 0⟩, "BankA", "Street 1"⟩

noncomputable def sampleRankedBank : RankedBloodBank :=
  ⟨sampleBank, calculateDistance ⟨0, 0⟩ sampleBank.toCoordinate⟩

def sampleLoc : LocationRecord := ⟨⟨0, 0⟩, "HospA", "Street 2", "560001", "080", "081"⟩

noncomputable def sampleRankedLoc : RankedLocation :=
  ⟨sampleLoc, calculateDistance ⟨0, 0⟩ sampleLoc.toCoordinate⟩

/-- C6: equal-distance records keep their original dataset order: every
distance class of the stable sort equals that class of the annotated
dataset; any all-tied subsequence of the selector output appears in the
annotated dataset in the same relative order; and the single-nearest scan
returns the first record attaining the minimum distance (every record
strictly before it is strictly farther). -/
theorem tie_order_matches_dataset_order (P : Coordinate) (D : List BloodBank)
    (L : List LocationRecord) :
    (∀ d : ℝ, (sortedBloodBanks P D).filter (fun r => decide (r.distance = d)) =
      (bloodBanksWithDistances P D).filter (fun r => decide (r.distance = d))) ∧
    (∀ c : List RankedBloodBank, c.Sublist (findNearestBloodBanks P D) →
      (∀ a ∈ c, ∀ b ∈ c, a.distance = b.distance) →
      c.Sublist (bloodBanksWithDistances P D)) ∧
    (∀ res : RankedLocation, findNearestLocation P L = some res →
      ∃ pre post, L = pre ++ res.toLocationRecord :: post ∧
        ∀ x ∈ pre, res.distance < calculateDistance P x.toCoordinate) := by
  refine ⟨filter_sortedBloodBanks_eq P D, ?_, ?_⟩
  · intro c hc htie
    have hc' : c.Sublist (sortedBloodBanks P D) := by
      by_cases hD : D.length = 0
      · rw [findNearestBloodBanks, if_pos hD] at hc
        rw [List.sublist_nil.mp hc]
        exact List.nil_sublist _
      · rw [findNearestBloodBanks, if_neg hD] at hc
        exact hc.trans (List.take_sublist 3 _)
    cases c with
    | nil => exact List.nil_sublist _
    | cons a c' =>
      have hall : ∀ x ∈ a :: c', (fun r : RankedBloodBank =>
          decide (r.distance = a.distance)) x = true := by
        intro x hx
        exact decide_eq_true (htie x hx a (List.mem_cons_self a c'))
      have hfc : (a :: c').filter (fun r => decide (r.distance = a.distance)) =
          a :: c' := List.filter_eq_self.mpr hall
      have hstep := hc'.filter (fun r => decide (r.distance = a.distance))
      rw [hfc, filter_sortedBloodBanks_eq P D a.distance] at hstep
      exact hstep.trans (List.filter_sublist _)
  · intro res hres
    cases L with
    | nil => simp [findNearestLocation] at hres
    | cons first rest =>
      obtain ⟨h1, h2, pre, post, hdec, hpre⟩ :=
        foldl_nearestStep_spec P rest first
          (rest.foldl (nearestStep P) (first, calculateDistance P first.toCoordinate))
          rfl
      have hres' : ({ (rest.foldl (nearestStep P)
            (first, calculateDistance P first.toCoordinate)).1 with
          distance := (rest.foldl (nearestStep P)
            (first, calculateDistance P first.toCoordinate)).2 } : RankedLocation) =
          res := by
        have h := hres
        simp only [findNearestLocation] at h
        exact Option.some.inj h
      refine ⟨pre, post, ?_, ?_⟩
      · rw [← hres']
        exact hdec
      · intro x hx
        rw [← hres']
        exact hpre x hx

/-- Witness for C6 at a one-record dataset. -/
theorem tie_order_matches_dataset_order_witness :
    ([] : List RankedBloodBank).Sublist (bloodBanksWithDistances ⟨0, 0⟩ [sampleBank]) ∧
    ∃ pre post, [sampleLoc] = pre ++ sampleRankedLoc.toLocationRecord :: post ∧
      ∀ x ∈ pre, sampleRankedLoc.distance < calculateDistance ⟨0, 0⟩ x.toCoordinate :=
  ⟨(tie_order_matches_dataset_order ⟨0, 0⟩ [sampleBank] [sampleLoc]).2.1 []
      (List.nil_sublist _) (by simp),
    (tie_order_matches_dataset_order ⟨0, 0⟩ [sampleBank] [sampleLoc]).2.2
      sampleRankedLoc rfl⟩

/-- Two lists sorted by distance whose distance classes agree are equal. -/
lemma eq_of_sorted_of_filter_eq :
    ∀ l₁ l₂ : List RankedBloodBank,
    l₁.Pairwise (fun a b => a.distance ≤ b.distance) →
    l₂.Pairwise (fun a b => a.distance ≤ b.distance) →
    (∀ d : ℝ, l₁.filter (fun r => decide (r.distance = d)) =
      l₂.filter (fun r => decide (r.distance = d))) →
    l₁ = l₂ := by
  intro l₁
  induction l₁ with
  | nil =>
    intro l₂ _ _ hf
    cases l₂ with
    | nil => rfl
    | cons b t₂ =>
      exfalso
      have h := hf b.distance
      rw [List.filter_nil, List.filter_cons_of_pos (by simp)] at h
      exact List.noConfusion h
  | cons a t₁ ih =>
    intro l₂ h₁ h₂ hf
    cases l₂ with
    | nil =>
      exfalso
      have h := hf a.distance
      rw [List.filter_nil, List.filter_cons_of_pos (by simp)] at h
      exact List.noConfusion h
    | cons b t₂ =>
      have hpa : ∀ y ∈ t₁, a.distance ≤ y.distance := (List.pairwise_cons.mp h₁).1
      have hpb : ∀ y ∈ t₂, b.distance ≤ y.distance := (List.pairwise_cons.mp h₂).1
      have hba : b.distance ≤ a.distance := by
        have hfa := hf a.distance
        rw [List.filter_cons_of_pos (by simp)] at hfa
        have hmem : a ∈ (b :: t₂).filter
            (fun r => decide (r.distance = a.distance)) := by
          rw [← hfa]
          exact List.mem_cons_self _ _
        rcases List.mem_cons.mp (List.mem_filter.mp hmem).1 with h | h
        · rw [h]
        · exact hpb a h
      have hab : a.distance ≤ b.distance := by
        have hfb := hf b.distance
        rw [List.filter_cons_of_pos (p := fun r => decide (r.distance = b.distance))
          (by simp) (l := t₂)] at hfb
        have hmem : b ∈ (a :: t₁).filter
            (fun r => decide (r.distance = b.distance)) := by
          rw [hfb]
          exact List.mem_cons_self _ _
        rcases List.mem_cons.mp (List.mem_filter.mp hmem).1 with h | h
        · rw [← h]
        · exact hpa b h
      have hd : a.distance = b.distance := le_antisymm hab hba
      have hfd := hf a.distance
      rw [List.filter_cons_of_pos (by simp),
        List.filter_cons_of_pos (by simp [hd])] at hfd
      have hhead : a = b := (List.cons_eq_cons.mp hfd).1
      have htail : t₁ = t₂ := by
        apply ih t₂ (List.pairwise_cons.mp h₁).2 (List.pairwise_cons.mp h₂).2
        intro d'
        by_cases hdd : a.distance = d'
        · have h := hf d'
          rw [List.filter_cons_of_pos (by simp [hdd]),
            List.filter_cons_of_pos (by simp [← hd, hdd])] at h
          exact (List.cons_eq_cons.mp h).2
        · have h := hf d'
          rw [List.filter_cons_of_neg (by simp [hdd]),
            List.filter_cons_of_neg (by simp [← hd, hdd])] at h
          exact h
      rw [hhead, htail]

/-- C9: the selection is deterministic including tie order: a result list
satisfies the spec's output conditions (sorted non-decreasing by distance,
each distance class in original dataset order) exactly when it is the one
list the code computes, so identical inputs always yield the identical
output. -/
theorem selection_deterministic (P : Coordinate) (D : List BloodBank)
    (out : List RankedBloodBank) :
    (out.Pairwise (fun a b => a.distance ≤ b.distance) ∧
      ∀ d : ℝ, out.filter (fun r => decide (r.distance = d)) =
        (bloodBanksWithDistances P D).filter (fun r => decide (r.distance = d))) ↔
    out = sortedBloodBanks P D := by
  constructor
  · rintro ⟨hs, hfil⟩
    apply eq_of_sorted_of_filter_eq out (sortedBloodBanks P D) hs
      (sortedBloodBanks_pairwise P D)
    intro d
    rw [hfil d, filter_sortedBloodBanks_eq]
  · rintro rfl
    exact ⟨sortedBloodBanks_pairwise P D, filter_sortedBloodBanks_eq P D⟩

/-- C10: every ranked result is a dataset record with all fields unchanged
and only the distance to it added, in both selector variants. -/
theorem ranked_records_preserve_fields (P : Coordinate) (D : List BloodBank)
    (L : List LocationRecord) :
    (∀ r ∈ findNearestBloodBanks P D, r.toBloodBank ∈ D ∧
      r.distance = calculateDistance P r.toBloodBank.toCoordinate) ∧
    (∀ res : RankedLocation, findNearestLocation P L = some res →
      res.toLocationRecord ∈ L ∧
      res.distance = calculateDistance P res.toLocationRecord.toCoordinate) := by
  constructor
  · intro r hr
    have hr' : r ∈ bloodBanksWithDistances P D := by
      by_cases hD : D.length = 0
      · rw [findNearestBloodBanks, if_pos hD] at hr
        exact absurd hr (List.not_mem_nil r)
      · rw [findNearestBloodBanks, if_neg hD] at hr
        have hmem := (List.take_sublist 3 _).subset hr
        rw [sortedBloodBanks] at hmem
        exact List.mem_mergeSort.mp hmem
    obtain ⟨bank, hbank, hfb⟩ := List.mem_map.mp hr'
    constructor
    · rw [← hfb]
      exact hbank
    · rw [← hfb]
  · intro res hres
    cases L with
    | nil => simp [findNearestLocation] at hres
    | cons first rest =>
      obtain ⟨h1, -, pre, post, hdec, -⟩ :=
        foldl_nearestStep_spec P rest first
          (rest.foldl (nearestStep P) (first, calculateDistance P first.toCoordinate))
          rfl
      have hres' : ({ (rest.foldl (nearestStep P)
            (first, calculateDistance P first.toCoordinate)).1 with
          distance := (rest.foldl (nearestStep P)
            (first, calculateDistance P first.toCoordinate)).2 } : RankedLocation) =
          res := by
        have h := hres
        simp only [findNearestLocation] at h
        exact Option.some.inj h
      constructor
      · rw [← hres']
        show (rest.foldl (nearestStep P)
          (first, calculateDistance P first.toCoordinate)).1 ∈ first :: rest
        rw [hdec]
        exact List.mem_append_right _ (List.mem_cons_self _ _)
      · rw [← hres']
        exact h1

/-- Witness for C10 at a one-record dataset. -/
theorem ranked_records_preserve_fields_witness :
    (sampleRankedBank.toBloodBank ∈ [sampleBank] ∧
      sampleRankedBank.distance =
        calculateDistance ⟨0, 0⟩ sampleRankedBank.toBloodBank.toCoordinate) ∧
    (sampleRankedLoc.toLocationRecord ∈ [sampleLoc] ∧
      sampleRankedLoc.distance =
        calculateDistance ⟨0, 0⟩ sampleRankedLoc.toLocationRecord.toCoordinate) :=
  ⟨(ranked_records_preserve_fields ⟨0, 0⟩ [sampleBank] [sampleLoc]).1 sampleRankedBank
      (by simp [findNearestBloodBanks, sortedBloodBanks, bloodBanksWithDistances,
        sampleRankedBank]),
    (ranked_records_preserve_fields ⟨0, 0⟩ [sampleBank] [sampleLoc]).2
      sampleRankedLoc rfl⟩

/-- A JavaScript number as far as the parse layer observes it: `NaN`,
signed `Infinity`, or a finite value. Finite values are modeled as exact
rationals; double rounding is out of scope. -/
inductive JsNumber where
  | nan : JsNumber
  | inf : Bool → JsNumber
  | val : ℚ → JsNumber
deriving DecidableEq

/-- Value of a string of decimal digits. -/
def digitsVal (cs : List Char) : ℕ :=
  cs.foldl (fun n c => 10 * n + (c.toNat - Char.toNat '0')) 0

/-- Value of a fractional digit string (digits after the point). -/
def fracVal (cs : List Char) : ℚ :=
  (digitsVal cs : ℚ) / 10 ^ cs.length

/-- Optional exponent suffix `e`/`E` with optional sign; an incomplete
suffix contributes nothing, as `parseFloat` takes the longest valid
prefix. -/
def expVal (cs : List Char) : ℤ :=
  match cs with
  | c :: rest =>
    if c = 'e' ∨ c = 'E' then
      match rest with
      | '+' :: rest2 =>
        let ds := rest2.takeWhile Char.isDigit
        if ds.isEmpty then 0 else (digitsVal ds : ℤ)
      | '-' :: rest2 =>
        let ds := rest2.takeWhile Char.isDigit
        if ds.isEmpty then 0 else -(digitsVal ds : ℤ)
      | _ =>
        let ds := rest.takeWhile Char.isDigit
        if ds.isEmpty then 0 else (digitsVal ds : ℤ)
    else 0
  | [] => 0

/-- Unsigned decimal literal `digits [. digits] [exponent]`; `none` when
no digit is present (the `NaN` case of `parseFloat`). -/
def parseUnsigned (cs : List Char) : Option ℚ :=
  let intDigits := cs.takeWhile Char.isDigit
  let cs1 := cs.dropWhile Char.isDigit
  let fracDigits :=
    match cs1 with
    | '.' :: rest => rest.takeWhile Char.isDigit
    | _ => []
  let cs2 :=
    match cs1 with
    | '.' :: rest => rest.dropWhile Char.isDigit
    | _ => cs1
  if intDigits.isEmpty && fracDigits.isEmpty then none
  else some (((digitsVal intDigits : ℚ) + fracVal fracDigits) * 10 ^ expVal cs2)

/-- The signed body after whitespace skipping: `Infinity` or a decimal
literal. -/
def parseSigned (neg : Bool) (cs : List Char) : JsNumber :=
  if cs.take 8 = "Infinity".data then JsNumber.inf neg
  else
    match parseUnsigned cs with
    | none => JsNumber.nan
    | some q => JsNumber.val (if neg then -q else q)

/-- Model of JavaScript `parseFloat`: skip leading whitespace, optional
sign, then the longest prefix that is a decimal literal or `Infinity`;
`NaN` when no prefix parses. -/
def parseFloat (s : String) : JsNumber :=
  let cs := s.data.dropWhile Char.isWhitespace
  match cs with
  | '-' :: rest => parseSigned true rest
  | '+' :: rest => parseSigned false rest
  | _ => parseSigned false cs

/-- `parseFloat` applied to a field that may be absent: JavaScript
coerces `undefined` to the string `"undefined"`, which parses to `NaN`. -/
def jsParseFloatField : Option String → JsNumber
  | none => JsNumber.nan
  | some s => parseFloat s

/-- JavaScript truthiness of a `string | undefined` field: `undefined`
and the empty string are falsy, every other string is truthy. -/
def jsTruthy : Option String → Bool
  | none => false
  | some s => !s.isEmpty

/-- JavaScript `v || alt` on a `string | undefined` field. -/
def jsOrString (v : Option String) (alt : String) : String :=
  match v with
  | none => alt
  | some s => if s.isEmpty then alt else s

/-- A raw CSV row of the hospital dataset as produced by `Papa.parse`
with `header: true` (`src/unnamed/part_000`): one optional string per
header of interest (`LATITUDE`, `LONGITUDE`, `Hospital Name`, `Address`,
`Pin Code`, `PhONE NO`, `Fax`). -/
structure RawItem where
  LATITUDE : Option String
  LONGITUDE : Option String
  hospitalName : Option String
  address : Option String
  pinCode : Option String
  phoneNo : Option String
  fax : Option String
deriving DecidableEq

/-- The record built by the `.map` of the parse callback
(`src/unnamed/part_000` lines 53-61). -/
structure ParsedLocation where
  lat : JsNumber
  lng : JsNumber
  name : String
  address : String
  pinCode : String
  phoneNo : String
  fax : String
deriving DecidableEq

/-- The `.map` body of the parse callback (`src/unnamed/part_000`
lines 53-61). -/
def convertRow (item : RawItem) : ParsedLocation :=
  { lat := jsParseFloatField item.LATITUDE
    lng := jsParseFloatField item.LONGITUDE
    name := jsOrString item.hospitalName "Not Available"
    address := jsOrString item.address "Not Available"
    pinCode := jsOrString item.pinCode "Not Available"
    phoneNo := jsOrString item.phoneNo "Not Available"
    fax := jsOrString item.fax "Not Available" }

/-- `parsedLocations` from the parse callback of `src/unnamed/part_000`
lines 51-61: `results.data.filter(item => item['LATITUDE'] &&
item['LONGITUDE']).map(...)`. -/
def parsedLocations (rows : List RawItem) : List ParsedLocation :=
  (rows.filter fun item => jsTruthy item.LATITUDE && jsTruthy item.LONGITUDE).map
    convertRow

/-- A row whose latitude text is truthy but does not parse as a number. -/
def badCoordRow : RawItem :=
  ⟨some "abc", some "77.6", none, none, none, none, none⟩

/-- Counterexample to C4 as stated: a row whose `LATITUDE` fails to parse
(`parseFloat` gives `NaN`) is NOT dropped — the parser only tests
truthiness of the raw strings, so the record survives with a `NaN`
latitude. -/
theorem parsedLocations_keeps_nan_row :
    jsParseFloatField badCoordRow.LATITUDE = JsNumber.nan ∧
    (parsedLocations [badCoordRow]).length = 1 ∧
    (parsedLocations [badCoordRow]).map ParsedLocation.lat = [JsNumber.nan] := by
  refine ⟨?_, rfl, ?_⟩ <;> decide

lemma jsTruthy_eq_true_iff (v : Option String) :
    jsTruthy v = true ↔ ∃ s, v = some s ∧ s ≠ "" := by
  cases v with
  | none => simp [jsTruthy]
  | some s =>
    simp only [jsTruthy, Option.some.injEq, exists_eq_left']
    rw [Bool.not_eq_true', Bool.eq_false_iff, Ne, String.isEmpty_iff]

lemma jsTruthy_eq_false_iff (v : Option String) :
    jsTruthy v = false ↔ v = none ∨ v = some "" := by
  cases v with
  | none => simp [jsTruthy]
  | some s => simp [jsTruthy, String.isEmpty_iff]

/-- C4 (amended): the parser drops exactly the rows whose latitude or
longitude field is absent or the empty string (JavaScript falsiness), and
keeps every other row — including rows whose coordinate text merely fails
to parse — in original source row order. -/
theorem parsedLocations_drop_condition_and_order (xs ys : List RawItem)
    (bad good : RawItem)
    (hbad : bad.LATITUDE = none ∨ bad.LATITUDE = some "" ∨
      bad.LONGITUDE = none ∨ bad.LONGITUDE = some "")
    (hgoodLat : ∃ s, good.LATITUDE = some s ∧ s ≠ "")
    (hgoodLng : ∃ s, good.LONGITUDE = some s ∧ s ≠ "") :
    parsedLocations (xs ++ bad :: ys) = parsedLocations (xs ++ ys) ∧
    parsedLocations (xs ++ good :: ys) =
      parsedLocations xs ++ convertRow good :: parsedLocations ys := by
  have hbad' : (jsTruthy bad.LATITUDE && jsTruthy bad.LONGITUDE) = false := by
    rcases hbad with h | h | h | h
    · rw [(jsTruthy_eq_false_iff bad.LATITUDE).mpr (Or.inl h), Bool.false_and]
    · rw [(jsTruthy_eq_false_iff bad.LATITUDE).mpr (Or.inr h), Bool.false_and]
    · rw [(jsTruthy_eq_false_iff bad.LONGITUDE).mpr (Or.inl h), Bool.and_false]
    · rw [(jsTruthy_eq_false_iff bad.LONGITUDE).mpr (Or.inr h), Bool.and_false]
  have hgood' : (jsTruthy good.LATITUDE && jsTruthy good.LONGITUDE) = true := by
    rw [(jsTruthy_eq_true_iff good.LATITUDE).mpr hgoodLat,
      (jsTruthy_eq_true_iff good.LONGITUDE).mpr hgoodLng, Bool.and_true]
  constructor
  · simp [parsedLocations, List.filter_append, List.filter_cons, hbad']
  · simp [parsedLocations, List.filter_append, List.filter_cons, hgood']

/-- Witness for C4 (amended) at concrete rows: an empty-latitude row is
dropped, a parsable row is kept. -/
theorem parsedLocations_drop_condition_and_order_witness :
    parsedLocations ([] ++ (⟨some "", some "77.6", none, none, none, none, none⟩ : RawItem) :: []) =
      parsedLocations ([] ++ []) ∧
    parsedLocations ([] ++ (⟨some "12.97", some "77.59", none, none, none, none, none⟩ : RawItem) :: []) =
      parsedLocations [] ++
        convertRow ⟨some "12.97", some "77.59", none, none, none, none, none⟩ ::
          parsedLocations [] :=
  ⟨(parsedLocations_drop_condition_and_order [] []
      ⟨some "", some "77.6", none, none, none, none, none⟩
      ⟨some "12.97", some "77.59", none, none, none, none, none⟩
      (Or.inr (Or.inl rfl))
      ⟨"12.97", rfl, by decide⟩ ⟨"77.59", rfl, by decide⟩).1,
    (parsedLocations_drop_condition_and_order [] []
      ⟨some "", some "77.6", none, none, none, none, none⟩
      ⟨some "12.97", some "77.59", none, none, none, none, none⟩
      (Or.inr (Or.inl rfl))
      ⟨"12.97", rfl, by decide⟩ ⟨"77.59", rfl, by decide⟩).2⟩

/-- The spec's display-attribute rule (§4.2 step 3): the source value,
or the "not available" sentinel when the field is absent or empty. -/
def displayOrSentinel : Option String → String
  | none => "Not Available"
  | some s => if s = "" then "Not Available" else s

lemma jsOrString_eq_displayOrSentinel (v : Option String) :
    jsOrString v "Not Available" = displayOrSentinel v := by
  cases v with
  | none => rfl
  | some s =>
    simp only [jsOrString, displayOrSentinel]
    by_cases hs : s = ""
    · rw [if_pos hs, if_pos ((String.isEmpty_iff s).mpr hs)]
    · rw [if_neg hs, if_neg fun hh => hs ((String.isEmpty_iff s).mp hh)]

/-- C8: a row with usable coordinates is never dropped — whatever its
display fields — and each display attribute of its parsed record is the
source value or the "Not Available" sentinel when absent or empty. -/
theorem parsedLocations_display_attributes (rows : List RawItem) (item : RawItem)
    (hmem : item ∈ rows)
    (hlat : ∃ s, item.LATITUDE = some s ∧ s ≠ "")
    (hlng : ∃ s, item.LONGITUDE = some s ∧ s ≠ "") :
    convertRow item ∈ parsedLocations rows ∧
    (convertRow item).name = displayOrSentinel item.hospitalName ∧
    (convertRow item).address = displayOrSentinel item.address ∧
    (convertRow item).pinCode = displayOrSentinel item.pinCode ∧
    (convertRow item).phoneNo = displayOrSentinel item.phoneNo ∧
    (convertRow item).fax = displayOrSentinel item.fax := by
  refine ⟨?_, jsOrString_eq_displayOrSentinel _, jsOrString_eq_displayOrSentinel _,
    jsOrString_eq_displayOrSentinel _, jsOrString_eq_displayOrSentinel _,
    jsOrString_eq_displayOrSentinel _⟩
  apply List.mem_map_of_mem convertRow
  apply List.mem_filter.mpr
  refine ⟨hmem, ?_⟩
  rw [(jsTruthy_eq_true_iff item.LATITUDE).mpr hlat,
    (jsTruthy_eq_true_iff item.LONGITUDE).mpr hlng, Bool.and_true]

/-- Witness for C8: a kept row all of whose display fields are absent or
empty. -/
theorem parsedLocations_display_attributes_witness :
    convertRow ⟨some "12.97", some "77.59", none, some "", none, none, none⟩ ∈
      parsedLocations [⟨some "12.97", some "77.59", none, some "", none, none, none⟩] ∧
    (convertRow ⟨some "12.97", some "77.59", none, some "", none, none, none⟩).name =
      displayOrSentinel none :=
  ⟨(parsedLocations_display_attributes
      [⟨some "12.97", some "77.59", none, some "", none, none, none⟩]
      ⟨some "12.97", some "77.59", none, some "", none, none, none⟩
      (List.mem_singleton.mpr rfl)
      ⟨"12.97", rfl, by decide⟩ ⟨"77.59", rfl, by decide⟩).1,
    (parsedLocations_display_attributes
      [⟨some "12.97", some "77.59", none, some "", none, none, none⟩]
      ⟨some "12.97", some "77.59", none, some "", none, none, none⟩
      (List.mem_singleton.mpr rfl)
      ⟨"12.97", rfl, by decide⟩ ⟨"77.59", rfl, by decide⟩).2.1⟩
